import Mathlib

/-!
Verification of the drawing-tablet input core (labwc `tablet.c`).

The source is shallowly embedded over `ℚ`: the C code computes with IEEE
doubles, but every operation used (add, sub, mul, div, comparison, test
against zero) is exact on the rational inputs considered here, so `ℚ`
models the intended real-number semantics of the spec.
-/

namespace Tablet

/-- wlroots tablet tool type tags, modelled as natural numbers so that
unknown or future tags are representable (the C enum is an integer). -/
def WLR_TABLET_TOOL_TYPE_PEN : Nat := 1

def WLR_TABLET_TOOL_TYPE_ERASER : Nat := 2

def WLR_TABLET_TOOL_TYPE_BRUSH : Nat := 3

def WLR_TABLET_TOOL_TYPE_PENCIL : Nat := 4

def WLR_TABLET_TOOL_TYPE_AIRBRUSH : Nat := 5

def WLR_TABLET_TOOL_TYPE_MOUSE : Nat := 6

def WLR_TABLET_TOOL_TYPE_LENS : Nat := 7

/-- `tool_supports_absolute_motion` from the source: a switch on the tool
type returning `false` for the mouse-like puck and lens, `true` in the
default branch. -/
def tool_supports_absolute_motion (toolType : Nat) : Bool :=
  if toolType = WLR_TABLET_TOOL_TYPE_MOUSE ∨ toolType = WLR_TABLET_TOOL_TYPE_LENS then
    false
  else
    true

/-- `struct wlr_fbox`: the configured active-area rectangle, millimeters. -/
structure FBox where
  x : ℚ
  y : ℚ
  width : ℚ
  height : ℚ
deriving DecidableEq

/-- `adjust_for_tablet_area` from the source, acting on a coordinate pair
instead of two out-parameters.  The early return, the zero-size
extend-to-edge resolution, the per-axis overflow guards and the scaling
formula (`max_x = 1`) are transcribed branch for branch. -/
def adjust_for_tablet_area (tablet_width tablet_height : ℚ) (box : FBox)
    (p : ℚ × ℚ) : ℚ × ℚ :=
  if (box.x = 0 ∧ box.y = 0 ∧ box.width = 0 ∧ box.height = 0)
      ∨ tablet_width = 0 ∨ tablet_height = 0 then
    p
  else
    let bw := if box.width = 0 then tablet_width - box.x else box.width
    let bh := if box.height = 0 then tablet_height - box.y else box.height
    let x :=
      if box.x + bw ≤ tablet_width then
        (p.1 - 1 * box.x / tablet_width) * tablet_width / bw
      else
        p.1
    let y :=
      if box.y + bh ≤ tablet_height then
        (p.2 - 1 * box.y / tablet_height) * tablet_height / bh
      else
        p.2
    (x, y)

/-- `enum rotation` from the configuration. -/
inductive Rotation where
  | none
  | r90
  | r180
  | r270
deriving DecidableEq

/-- `adjust_for_rotation` from the source: the four-way switch with the
temporary variable eliminated by returning a fresh pair. -/
def adjust_for_rotation : Rotation → ℚ × ℚ → ℚ × ℚ
  | Rotation.none, p => p
  | Rotation.r90, (x, y) => (1 - y, x)
  | Rotation.r180, (x, y) => (1 - x, 1 - y)
  | Rotation.r270, (x, y) => (y, 1 - x)

/-- The process-wide configuration consumed on each axis event
(`rc.tablet.box` and `rc.tablet.rotation`). -/
structure TabletConfig where
  box : FBox
  rotation : Rotation
deriving DecidableEq

/-- The mutable per-device state of `struct drawing_tablet` used by the
handlers: the last stored normalized coordinates. -/
structure DrawingTablet where
  x : ℚ
  y : ℚ
deriving DecidableEq

/-- `struct wlr_tablet_tool_axis_event`, restricted to the fields the
handler reads: the update mask (X and Y bits), the new coordinates, the
reporting tool's type tag and the timestamp. -/
structure AxisEvent where
  updatedX : Bool
  updatedY : Bool
  x : ℚ
  y : ℚ
  toolType : Nat
  timeMsec : Nat
deriving DecidableEq

/-- `struct wlr_tablet_tool_tip_event`: `down = true` models
`WLR_TABLET_TOOL_TIP_DOWN`. -/
structure TipEvent where
  down : Bool
  timeMsec : Nat
deriving DecidableEq

/-- A call made into the cursor-emulation collaborator:
`cursor_emulate_move_absolute` or `cursor_emulate_button`
(`pressed = true` models `WLR_BUTTON_PRESSED`). -/
inductive EmuCall where
  | moveAbsolute (x y : ℚ) (timeMsec : Nat)
  | button (code : Nat) (pressed : Bool) (timeMsec : Nat)
deriving DecidableEq

/-- `BTN_TOOL_PEN` from `linux/input-event-codes.h` (0x140). -/
def BTN_TOOL_PEN : Nat := 320

/-- `handle_axis` from the source: drop events from tools without
absolute motion; if the mask has an X or Y bit, overwrite the
corresponding stored coordinate, run crop-then-rotate on the full stored
pair and emit one absolute move; otherwise ignore.  Returns the updated
device record and the list of emulation calls made. -/
def handle_axis (tablet_width tablet_height : ℚ) (cfg : TabletConfig)
    (t : DrawingTablet) (ev : AxisEvent) : DrawingTablet × List EmuCall :=
  if ¬ tool_supports_absolute_motion ev.toolType then
    (t, [])
  else if ev.updatedX ∨ ev.updatedY then
    let t' : DrawingTablet :=
      { x := if ev.updatedX then ev.x else t.x
        y := if ev.updatedY then ev.y else t.y }
    let p := adjust_for_rotation cfg.rotation
      (adjust_for_tablet_area tablet_width tablet_height cfg.box (t'.x, t'.y))
    (t', [EmuCall.moveAbsolute p.1 p.2 ev.timeMsec])
  else
    (t, [])

/-- `handle_tip` from the source: resolve `BTN_TOOL_PEN` through the
button-mapping collaborator (`tablet_get_mapped_button`, passed in as a
function since it is external configuration); zero means unmapped and
drops the event, otherwise one button call is made with pressed iff the
tip went down. -/
def handle_tip (tablet_get_mapped_button : Nat → Nat) (t : DrawingTablet)
    (ev : TipEvent) : DrawingTablet × List EmuCall :=
  let button := tablet_get_mapped_button BTN_TOOL_PEN
  if button = 0 then
    (t, [])
  else
    (t, [EmuCall.button button ev.down ev.timeMsec])

/-- `struct wlr_tablet_tool_button_event`, restricted to what the
handler reads. -/
structure ButtonEvent where
  button : Nat
  pressed : Bool
  timeMsec : Nat
deriving DecidableEq

/-- `handle_button` from the source: map the event's own code, drop if
unmapped, otherwise forward the press state verbatim. -/
def handle_button (tablet_get_mapped_button : Nat → Nat) (t : DrawingTablet)
    (ev : ButtonEvent) : DrawingTablet × List EmuCall :=
  let button := tablet_get_mapped_button ev.button
  if button = 0 then
    (t, [])
  else
    (t, [EmuCall.button button ev.pressed ev.timeMsec])

/-- The five event-stream subscriptions owned by a device record. -/
inductive Sub where
  | axis
  | proximity
  | tip
  | button
  | destroy
deriving DecidableEq, BEq

/-- An observable resource action of the destroy handler: revoking one
subscription (`wl_list_remove`) or releasing the record (`free`). -/
inductive DestroyAction where
  | revoke (s : Sub)
  | free
deriving DecidableEq, BEq

/-- `handle_destroy` from the source, as its sequence of resource
actions in program order: remove the tip, button, proximity, axis and
destroy listeners, then free the record. -/
def handle_destroy : List DestroyAction :=
  [DestroyAction.revoke Sub.tip, DestroyAction.revoke Sub.button,
   DestroyAction.revoke Sub.proximity, DestroyAction.revoke Sub.axis,
   DestroyAction.revoke Sub.destroy, DestroyAction.free]

/-- The subscriptions connected by `tablet_init` (the five
`CONNECT_SIGNAL` lines, in program order). -/
def tablet_init_subs : List Sub :=
  [Sub.axis, Sub.proximity, Sub.tip, Sub.button, Sub.destroy]

/-- Lifecycle state of one device record: which subscriptions are live
and whether the record memory is still alive. -/
structure DeviceState where
  subs : List Sub
  alive : Bool
deriving DecidableEq

/-- Effect of one destroy-handler action on the lifecycle state. -/
def applyAction (st : DeviceState) : DestroyAction → DeviceState
  | DestroyAction.revoke s => { st with subs := st.subs.erase s }
  | DestroyAction.free => { st with alive := false }

/-- The lifecycle effect of running `handle_destroy` to completion. -/
def runDestroy (st : DeviceState) : DeviceState :=
  handle_destroy.foldl applyAction st

/-- The event kinds a device's event source can deliver. -/
inductive Event where
  | axisEv
  | proximityEv
  | tipEv
  | buttonEv
  | destroyEv
deriving DecidableEq

/-- The subscription through which each event kind is dispatched. -/
def subOf : Event → Sub
  | Event.axisEv => Sub.axis
  | Event.proximityEv => Sub.proximity
  | Event.tipEv => Sub.tip
  | Event.buttonEv => Sub.button
  | Event.destroyEv => Sub.destroy

/-- Modelled from the spec: the dispatch rule of the external event
source (the wl_signal machinery is not part of this repository).  A
callback for an event is observed only while the record is alive and
the matching subscription is registered; a dispatched destroy event runs
`handle_destroy`.  The returned Boolean records whether a callback was
observed. -/
def stepDevice (st : DeviceState) (e : Event) : DeviceState × Bool :=
  if st.alive && st.subs.contains (subOf e) then
    match e with
    | Event.destroyEv => (runDestroy st, true)
    | _ => (st, true)
  else
    (st, false)

/-- The trace of callback observations along a list of delivered
events. -/
def observe : DeviceState → List Event → List Bool
  | _, [] => []
  | st, e :: es =>
    let r := stepDevice st e
    r.2 :: observe r.1 es

/-- A rational lies in the unit interval (Boolean form, so that claims
about emitted calls are closed decidable statements). -/
def inUnit (q : ℚ) : Bool :=
  decide (0 ≤ q) && decide (q ≤ 1)

/-- Every coordinate carried by an emulation call lies in `[0,1]`
(button calls carry none). -/
def callInUnitSquare : EmuCall → Bool
  | EmuCall.moveAbsolute x y _ => inUnit x && inUnit y
  | EmuCall.button _ _ _ => true

/-- The unit square `[0,1]²` as a set of coordinate pairs. -/
def unitSquare : Set (ℚ × ℚ) :=
  {p : ℚ × ℚ | 0 ≤ p.1 ∧ p.1 ≤ 1 ∧ 0 ≤ p.2 ∧ p.2 ≤ 1}

/-- Unfolding of `adjust_for_tablet_area` past the early return. -/
lemma adjust_unfold (tw th : ℚ) (box : FBox) (p : ℚ × ℚ)
    (h : ¬ ((box.x = 0 ∧ box.y = 0 ∧ box.width = 0 ∧ box.height = 0)
        ∨ tw = 0 ∨ th = 0)) :
    adjust_for_tablet_area tw th box p =
      (if box.x + (if box.width = 0 then tw - box.x else box.width) ≤ tw then
        (p.1 - 1 * box.x / tw) * tw
          / (if box.width = 0 then tw - box.x else box.width)
      else
        p.1,
      if box.y + (if box.height = 0 then th - box.y else box.height) ≤ th then
        (p.2 - 1 * box.y / th) * th
          / (if box.height = 0 then th - box.y else box.height)
      else
        p.2) := by
  rw [adjust_for_tablet_area, if_neg h]

/-- Claim C9: with the all-zero sentinel area, or a zero physical width
or height, `adjust_for_tablet_area` returns its input unchanged. -/
theorem adjust_for_tablet_area_noop (tw th : ℚ) (box : FBox) (p : ℚ × ℚ)
    (h : (box.x = 0 ∧ box.y = 0 ∧ box.width = 0 ∧ box.height = 0)
        ∨ tw = 0 ∨ th = 0) :
    adjust_for_tablet_area tw th box p = p := by
  rw [adjust_for_tablet_area, if_pos h]

/-- Witness for C9: the sentinel area on a 33mm × 7mm surface, and a
zero physical width, both leave an arbitrary point untouched. -/
theorem adjust_for_tablet_area_noop_witness :
    adjust_for_tablet_area 33 7 ⟨0, 0, 0, 0⟩ (5, 9) = (5, 9) ∧
    adjust_for_tablet_area 0 7 ⟨1, 2, 3, 4⟩ (5, 9) = (5, 9) :=
  ⟨adjust_for_tablet_area_noop 33 7 ⟨0, 0, 0, 0⟩ (5, 9) (by norm_num),
   adjust_for_tablet_area_noop 0 7 ⟨1, 2, 3, 4⟩ (5, 9) (by norm_num)⟩

/-- Claim C10: `tool_supports_absolute_motion` returns `false` exactly
on the mouse-like and lens tool types; every other tag, known or
unknown, yields `true`. -/
theorem tool_supports_absolute_motion_false_iff (toolType : Nat) :
    tool_supports_absolute_motion toolType = false ↔
      toolType = WLR_TABLET_TOOL_TYPE_MOUSE ∨
        toolType = WLR_TABLET_TOOL_TYPE_LENS := by
  unfold tool_supports_absolute_motion
  split <;> simp_all

/-- Claim C4: on every axis that is adjusted (far edge of the resolved
rectangle within the physical edge on that axis), the new coordinate is
`(raw - offset/physical) * physical / effective_size` — stated for the
X and the Y axis. -/
theorem adjust_for_tablet_area_formula (tw th : ℚ) (box : FBox) (x y : ℚ)
    (htw : tw ≠ 0) (hth : th ≠ 0)
    (hns : ¬ (box.x = 0 ∧ box.y = 0 ∧ box.width = 0 ∧ box.height = 0))
    (bw bh : ℚ)
    (hbw : bw = if box.width = 0 then tw - box.x else box.width)
    (hbh : bh = if box.height = 0 then th - box.y else box.height) :
    (box.x + bw ≤ tw →
      (adjust_for_tablet_area tw th box (x, y)).1
        = (x - box.x / tw) * tw / bw) ∧
    (box.y + bh ≤ th →
      (adjust_for_tablet_area tw th box (x, y)).2
        = (y - box.y / th) * th / bh) := by
  constructor
  · intro hfit
    rw [adjust_unfold tw th box (x, y) (by tauto)]
    rw [← hbw]
    rw [if_pos hfit]
    ring
  · intro hfit
    rw [adjust_unfold tw th box (x, y) (by tauto)]
    rw [← hbh]
    rw [if_pos hfit]
    ring

/-- Witness for C4: `physical_width = 100`, area `(10, 0, 80, 0)`:
raw `x = 0.5` maps to `0.5` and raw `x = 0.1` maps to `0`; on the Y
axis, area `(10, 5, 80, 40)` on a 50mm-tall surface maps raw `y = 0.25`
to `(0.25 - 5/50) * 50/40 = 3/16`. -/
theorem adjust_for_tablet_area_formula_witness :
    (adjust_for_tablet_area 100 50 ⟨10, 0, 80, 0⟩ (1/2, 1/4)).1 = 1/2 ∧
    (adjust_for_tablet_area 100 50 ⟨10, 0, 80, 0⟩ (1/10, 1/4)).1 = 0 ∧
    (adjust_for_tablet_area 100 50 ⟨10, 5, 80, 40⟩ (1/2, 1/4)).2 = 3/16 := by
  refine ⟨?_, ?_, ?_⟩
  · rw [(adjust_for_tablet_area_formula 100 50 ⟨10, 0, 80, 0⟩ (1/2) (1/4)
      (by norm_num) (by norm_num) (by norm_num) 80 50 (by norm_num)
      (by norm_num)).1 (by norm_num)]
    norm_num
  · rw [(adjust_for_tablet_area_formula 100 50 ⟨10, 0, 80, 0⟩ (1/10) (1/4)
      (by norm_num) (by norm_num) (by norm_num) 80 50 (by norm_num)
      (by norm_num)).1 (by norm_num)]
    norm_num
  · rw [(adjust_for_tablet_area_formula 100 50 ⟨10, 5, 80, 40⟩ (1/2) (1/4)
      (by norm_num) (by norm_num) (by norm_num) 80 40 (by norm_num)
      (by norm_num)).2 (by norm_num)]
    norm_num

/-- Claim C2: the two axes are treated independently — an axis whose
resolved rectangle overflows the physical surface is returned unchanged
on that axis only, while the other axis, whose rectangle fits, is still
adjusted; stated for X overflowing, for Y overflowing, and for both. -/
theorem adjust_for_tablet_area_overflow_independent
    (tw th : ℚ) (box : FBox) (x y : ℚ)
    (htw : tw ≠ 0) (hth : th ≠ 0)
    (hns : ¬ (box.x = 0 ∧ box.y = 0 ∧ box.width = 0 ∧ box.height = 0))
    (bw bh : ℚ)
    (hbw : bw = if box.width = 0 then tw - box.x else box.width)
    (hbh : bh = if box.height = 0 then th - box.y else box.height) :
    ((tw < box.x + bw ∧ box.y + bh ≤ th) →
      adjust_for_tablet_area tw th box (x, y)
        = (x, (y - box.y / th) * th / bh)) ∧
    ((box.x + bw ≤ tw ∧ th < box.y + bh) →
      adjust_for_tablet_area tw th box (x, y)
        = ((x - box.x / tw) * tw / bw, y)) ∧
    ((tw < box.x + bw ∧ th < box.y + bh) →
      adjust_for_tablet_area tw th box (x, y) = (x, y)) := by
  refine ⟨?_, ?_, ?_⟩
  · rintro ⟨hxover, hyfit⟩
    rw [adjust_unfold tw th box (x, y) (by tauto)]
    rw [← hbw, ← hbh]
    rw [if_neg (not_le.mpr hxover), if_pos hyfit]
    rw [Prod.mk.injEq]
    exact ⟨rfl, by ring⟩
  · rintro ⟨hxfit, hyover⟩
    rw [adjust_unfold tw th box (x, y) (by tauto)]
    rw [← hbw, ← hbh]
    rw [if_pos hxfit, if_neg (not_le.mpr hyover)]
    rw [Prod.mk.injEq]
    exact ⟨by ring, rfl⟩
  · rintro ⟨hxover, hyover⟩
    rw [adjust_unfold tw th box (x, y) (by tauto)]
    rw [← hbw, ← hbh]
    rw [if_neg (not_le.mpr hxover), if_neg (not_le.mpr hyover)]

/-- Witness for C2: area `x = 50, width = 80` on a 100mm-wide surface
leaves the x coordinate unmodified while the y axis (which fits) is
rescaled to `(0.25 - 0.1) * 100 / 80 = 3/16`; symmetrically, area
`y = 50, height = 80` on a 100mm-tall surface leaves y unmodified while
x is rescaled. -/
theorem adjust_for_tablet_area_overflow_independent_witness :
    adjust_for_tablet_area 100 100 ⟨50, 10, 80, 80⟩ (3/10, 1/4)
      = (3/10, (1/4 - 10/100) * 100 / 80) ∧
    adjust_for_tablet_area 100 100 ⟨10, 50, 80, 80⟩ (1/4, 3/10)
      = ((1/4 - 10/100) * 100 / 80, 3/10) :=
  ⟨(adjust_for_tablet_area_overflow_independent 100 100 ⟨50, 10, 80, 80⟩
      (3/10) (1/4) (by norm_num) (by norm_num) (by norm_num) 80 80
      (by norm_num) (by norm_num)).1 ⟨by norm_num, by norm_num⟩,
   (adjust_for_tablet_area_overflow_independent 100 100 ⟨10, 50, 80, 80⟩
      (1/4) (3/10) (by norm_num) (by norm_num) (by norm_num) 80 80
      (by norm_num) (by norm_num)).2.1 ⟨by norm_num, by norm_num⟩⟩

/-- Claim C3: an axis whose size uses the zero extend-to-edge sentinel
always passes the overflow guard — even when its offset exceeds the
physical edge — so it is adjusted with a negative effective size and the
coordinate's orientation is flipped; symmetrically for Y. -/
theorem adjust_for_tablet_area_zero_size_never_skipped
    (tw th : ℚ) (box : FBox) (htw : 0 < tw) (hth : 0 < th) :
    ((box.width = 0 ∧ tw < box.x) →
      tw - box.x < 0 ∧
      (∀ x y : ℚ, (adjust_for_tablet_area tw th box (x, y)).1
          = (x - box.x / tw) * tw / (tw - box.x)) ∧
      (∀ x1 x2 y1 y2 : ℚ, x1 < x2 →
        (adjust_for_tablet_area tw th box (x2, y2)).1
          < (adjust_for_tablet_area tw th box (x1, y1)).1)) ∧
    ((box.height = 0 ∧ th < box.y) →
      th - box.y < 0 ∧
      (∀ x y : ℚ, (adjust_for_tablet_area tw th box (x, y)).2
          = (y - box.y / th) * th / (th - box.y)) ∧
      (∀ x1 x2 y1 y2 : ℚ, y1 < y2 →
        (adjust_for_tablet_area tw th box (x1, y2)).2
          < (adjust_for_tablet_area tw th box (x2, y1)).2)) := by
  constructor
  · rintro ⟨hw0, hx⟩
    have hns : ¬ ((box.x = 0 ∧ box.y = 0 ∧ box.width = 0 ∧ box.height = 0)
        ∨ tw = 0 ∨ th = 0) := by
      rintro (⟨h1, h2, h3, h4⟩ | h | h)
      · rw [h1] at hx; linarith
      · exact absurd h htw.ne'
      · exact absurd h hth.ne'
    have hbwneg : tw - box.x < 0 := by linarith
    have hform : ∀ x y : ℚ, (adjust_for_tablet_area tw th box (x, y)).1
        = (x - box.x / tw) * tw / (tw - box.x) := by
      intro x y
      rw [adjust_unfold tw th box (x, y) hns]
      rw [if_pos hw0, if_pos (by linarith : box.x + (tw - box.x) ≤ tw)]
      ring
    refine ⟨hbwneg, hform, ?_⟩
    intro x1 x2 y1 y2 h12
    rw [hform x2 y2, hform x1 y1]
    have key : 0 < (x1 - x2) * tw / (tw - box.x) :=
      div_pos_iff.mpr (Or.inr ⟨by nlinarith, hbwneg⟩)
    have hrw : (x1 - box.x / tw) * tw / (tw - box.x)
        - (x2 - box.x / tw) * tw / (tw - box.x)
        = (x1 - x2) * tw / (tw - box.x) := by ring
    linarith
  · rintro ⟨hh0, hy⟩
    have hns : ¬ ((box.x = 0 ∧ box.y = 0 ∧ box.width = 0 ∧ box.height = 0)
        ∨ tw = 0 ∨ th = 0) := by
      rintro (⟨h1, h2, h3, h4⟩ | h | h)
      · rw [h2] at hy; linarith
      · exact absurd h htw.ne'
      · exact absurd h hth.ne'
    have hbhneg : th - box.y < 0 := by linarith
    have hform : ∀ x y : ℚ, (adjust_for_tablet_area tw th box (x, y)).2
        = (y - box.y / th) * th / (th - box.y) := by
      intro x y
      rw [adjust_unfold tw th box (x, y) hns]
      rw [if_pos hh0, if_pos (by linarith : box.y + (th - box.y) ≤ th)]
      ring
    refine ⟨hbhneg, hform, ?_⟩
    intro x1 x2 y1 y2 h12
    rw [hform x1 y2, hform x2 y1]
    have key : 0 < (y1 - y2) * th / (th - box.y) :=
      div_pos_iff.mpr (Or.inr ⟨by nlinarith, hbhneg⟩)
    have hrw : (y1 - box.y / th) * th / (th - box.y)
        - (y2 - box.y / th) * th / (th - box.y)
        = (y1 - y2) * th / (th - box.y) := by ring
    linarith

/-- Witness for C3: `width = 0` with `x = 150` on a 100mm surface gives
an effective width of `-50`; the guard still passes and the axis is
flipped (a raw point further right maps further left), and symmetrically
for `height = 0`, `y = 120`. -/
theorem adjust_for_tablet_area_zero_size_never_skipped_witness :
    (100 : ℚ) - 150 < 0 ∧
    (adjust_for_tablet_area 100 100 ⟨150, 120, 0, 0⟩ (2/5, 1/2)).1
      = (2/5 - 150 / 100) * 100 / (100 - 150) ∧
    (adjust_for_tablet_area 100 100 ⟨150, 120, 0, 0⟩ (3/5, 1/2)).1
      < (adjust_for_tablet_area 100 100 ⟨150, 120, 0, 0⟩ (2/5, 1/2)).1 ∧
    (adjust_for_tablet_area 100 100 ⟨150, 120, 0, 0⟩ (2/5, 3/4)).2
      < (adjust_for_tablet_area 100 100 ⟨150, 120, 0, 0⟩ (2/5, 1/4)).2 := by
  have h := adjust_for_tablet_area_zero_size_never_skipped 100 100
    ⟨150, 120, 0, 0⟩ (by norm_num) (by norm_num)
  have hx := h.1 ⟨rfl, by norm_num⟩
  have hy := h.2 ⟨rfl, by norm_num⟩
  exact ⟨by norm_num, hx.2.1 (2/5) (1/2), hx.2.2 (2/5) (3/5) (1/2) (1/2) (by norm_num),
    hy.2.2 (2/5) (2/5) (1/4) (3/4) (by norm_num)⟩

/-- The rotation that undoes each rotation setting. -/
def rotationInverse : Rotation → Rotation
  | Rotation.none => Rotation.none
  | Rotation.r90 => Rotation.r270
  | Rotation.r180 => Rotation.r180
  | Rotation.r270 => Rotation.r90

lemma adjust_for_rotation_left_inv (r : Rotation) (p : ℚ × ℚ) :
    adjust_for_rotation (rotationInverse r) (adjust_for_rotation r p) = p := by
  cases r <;> rcases p with ⟨x, y⟩ <;>
    simp [adjust_for_rotation, rotationInverse, Prod.ext_iff]

lemma adjust_for_rotation_right_inv (r : Rotation) (p : ℚ × ℚ) :
    adjust_for_rotation r (adjust_for_rotation (rotationInverse r) p) = p := by
  cases r <;> rcases p with ⟨x, y⟩ <;>
    simp [adjust_for_rotation, rotationInverse, Prod.ext_iff]

lemma adjust_for_rotation_mem_unit (r : Rotation) (p : ℚ × ℚ)
    (h : 0 ≤ p.1 ∧ p.1 ≤ 1 ∧ 0 ≤ p.2 ∧ p.2 ≤ 1) :
    0 ≤ (adjust_for_rotation r p).1 ∧ (adjust_for_rotation r p).1 ≤ 1 ∧
      0 ≤ (adjust_for_rotation r p).2 ∧ (adjust_for_rotation r p).2 ≤ 1 := by
  rcases p with ⟨x, y⟩
  obtain ⟨h1, h2, h3, h4⟩ := h
  cases r <;> simp only [adjust_for_rotation] <;>
    refine ⟨by linarith, by linarith, by linarith, by linarith⟩

lemma adjust_for_rotation_mapsTo (r : Rotation) :
    Set.MapsTo (adjust_for_rotation r) unitSquare unitSquare := by
  intro p hp
  exact adjust_for_rotation_mem_unit r p hp

/-- Claim C5: each rotation setting is a bijection of the unit square;
the 90-degree rotation composed with itself four times is the identity
on `[0,1]²`, and the 180-degree rotation twice is the identity. -/
theorem adjust_for_rotation_bijective_and_periodic :
    (∀ r : Rotation, Set.BijOn (adjust_for_rotation r) unitSquare unitSquare) ∧
    (∀ p ∈ unitSquare,
      adjust_for_rotation Rotation.r90 (adjust_for_rotation Rotation.r90
        (adjust_for_rotation Rotation.r90 (adjust_for_rotation Rotation.r90 p)))
        = p) ∧
    (∀ p ∈ unitSquare,
      adjust_for_rotation Rotation.r180 (adjust_for_rotation Rotation.r180 p)
        = p) := by
  refine ⟨?_, ?_, ?_⟩
  · intro r
    have hinv : Set.InvOn (adjust_for_rotation (rotationInverse r))
        (adjust_for_rotation r) unitSquare unitSquare :=
      ⟨fun p _ => adjust_for_rotation_left_inv r p,
       fun p _ => adjust_for_rotation_right_inv r p⟩
    exact hinv.bijOn (adjust_for_rotation_mapsTo r)
      (adjust_for_rotation_mapsTo (rotationInverse r))
  · intro p _
    rcases p with ⟨x, y⟩
    simp [adjust_for_rotation, Prod.ext_iff]
  · intro p _
    rcases p with ⟨x, y⟩
    simp [adjust_for_rotation, Prod.ext_iff]

/-- Witness for C5: the composition identities evaluated at the
interior point `(1/3, 1/2)` of the unit square. -/
theorem adjust_for_rotation_bijective_and_periodic_witness :
    adjust_for_rotation Rotation.r90 (adjust_for_rotation Rotation.r90
      (adjust_for_rotation Rotation.r90
        (adjust_for_rotation Rotation.r90 (1/3, 1/2)))) = (1/3, 1/2) ∧
    adjust_for_rotation Rotation.r180
      (adjust_for_rotation Rotation.r180 (1/3, 1/2)) = (1/3, 1/2) :=
  ⟨adjust_for_rotation_bijective_and_periodic.2.1 (1/3, 1/2)
      (by norm_num [unitSquare, Set.mem_setOf_eq]),
   adjust_for_rotation_bijective_and_periodic.2.2 (1/3, 1/2)
      (by norm_num [unitSquare, Set.mem_setOf_eq])⟩

/-- Claim C6: an axis event from an absolute-motion tool whose mask has
only the Y bit leaves the stored X unchanged, and the single emulation
call is computed from the unchanged stored X together with the new Y. -/
theorem handle_axis_y_only_preserves_x
    (tw th : ℚ) (cfg : TabletConfig) (t : DrawingTablet) (ev : AxisEvent)
    (hs : tool_supports_absolute_motion ev.toolType = true)
    (hx : ev.updatedX = false) (hy : ev.updatedY = true) :
    (handle_axis tw th cfg t ev).1.x = t.x ∧
    (handle_axis tw th cfg t ev).2 =
      [EmuCall.moveAbsolute
        (adjust_for_rotation cfg.rotation
          (adjust_for_tablet_area tw th cfg.box (t.x, ev.y))).1
        (adjust_for_rotation cfg.rotation
          (adjust_for_tablet_area tw th cfg.box (t.x, ev.y))).2
        ev.timeMsec] := by
  constructor <;> simp [handle_axis, hs, hx, hy]

/-- Witness for C6: a Y-only update on a pen over a 100mm × 100mm
surface with area `(10, 0, 80, 0)` and 90-degree rotation keeps the
stored `x = 3/10` and emits the pipeline of `(3/10, 3/5)`, namely
`(2/5, 1/4)`. -/
theorem handle_axis_y_only_preserves_x_witness :
    (handle_axis 100 100 ⟨⟨10, 0, 80, 0⟩, Rotation.r90⟩ ⟨3/10, 2/5⟩
        ⟨false, true, 9/10, 3/5, WLR_TABLET_TOOL_TYPE_PEN, 42⟩).1.x = 3/10 ∧
    (handle_axis 100 100 ⟨⟨10, 0, 80, 0⟩, Rotation.r90⟩ ⟨3/10, 2/5⟩
        ⟨false, true, 9/10, 3/5, WLR_TABLET_TOOL_TYPE_PEN, 42⟩).2
      = [EmuCall.moveAbsolute (2/5) (1/4) 42] := by
  have h := handle_axis_y_only_preserves_x 100 100
    ⟨⟨10, 0, 80, 0⟩, Rotation.r90⟩ ⟨3/10, 2/5⟩
    ⟨false, true, 9/10, 3/5, WLR_TABLET_TOOL_TYPE_PEN, 42⟩
    (by decide) rfl rfl
  refine ⟨h.1, ?_⟩
  rw [h.2]
  norm_num [adjust_for_tablet_area, adjust_for_rotation]

/-- Claim C7: a tip event whose pen-tip code is unmapped (zero) makes no
emulation call and changes no state; a mapped code makes exactly one
button call, pressed iff the tip went down, with the same mapped code
for down and up. -/
theorem handle_tip_mapped_or_dropped (tablet_get_mapped_button : Nat → Nat)
    (t : DrawingTablet) (ev : TipEvent) :
    (tablet_get_mapped_button BTN_TOOL_PEN = 0 →
      handle_tip tablet_get_mapped_button t ev = (t, [])) ∧
    (tablet_get_mapped_button BTN_TOOL_PEN ≠ 0 →
      handle_tip tablet_get_mapped_button t ev =
        (t, [EmuCall.button (tablet_get_mapped_button BTN_TOOL_PEN)
          ev.down ev.timeMsec])) := by
  constructor <;> intro h <;> simp [handle_tip, h]

/-- Witness for C7: the all-unmapped resolver drops a tip-down; a
resolver mapping the pen tip to code 272 yields one pressed call on
tip-down and one released call with the same code on tip-up. -/
theorem handle_tip_mapped_or_dropped_witness :
    handle_tip (fun _ => 0) ⟨0, 0⟩ ⟨true, 7⟩ = (⟨0, 0⟩, []) ∧
    handle_tip (fun c => if c = 320 then 272 else 0) ⟨0, 0⟩ ⟨true, 7⟩
      = (⟨0, 0⟩, [EmuCall.button 272 true 7]) ∧
    handle_tip (fun c => if c = 320 then 272 else 0) ⟨0, 0⟩ ⟨false, 8⟩
      = (⟨0, 0⟩, [EmuCall.button 272 false 8]) := by
  refine ⟨(handle_tip_mapped_or_dropped (fun _ => 0) ⟨0, 0⟩ ⟨true, 7⟩).1 rfl,
    ?_, ?_⟩
  · have h := (handle_tip_mapped_or_dropped
      (fun c => if c = 320 then 272 else 0) ⟨0, 0⟩ ⟨true, 7⟩).2 (by decide)
    simpa using h
  · have h := (handle_tip_mapped_or_dropped
      (fun c => if c = 320 then 272 else 0) ⟨0, 0⟩ ⟨false, 8⟩).2 (by decide)
    simpa using h

lemma observe_dead (es : List Event) :
    observe ⟨[], false⟩ es = List.replicate es.length false := by
  induction es with
  | nil => rfl
  | cons e es ih =>
    simp [observe, stepDevice, List.replicate_succ, ih]

/-- Claim C8: the destroy handler revokes each of the five
subscriptions exactly once, every revocation precedes the release of
the record, and once the destroy notification has been dispatched (from
the state set up by `tablet_init`) no axis, proximity, tip or button
callback is ever observed again. -/
theorem handle_destroy_revokes_all_then_silence :
    (handle_destroy.count (DestroyAction.revoke Sub.axis) = 1 ∧
     handle_destroy.count (DestroyAction.revoke Sub.proximity) = 1 ∧
     handle_destroy.count (DestroyAction.revoke Sub.tip) = 1 ∧
     handle_destroy.count (DestroyAction.revoke Sub.button) = 1 ∧
     handle_destroy.count (DestroyAction.revoke Sub.destroy) = 1 ∧
     handle_destroy.count DestroyAction.free = 1) ∧
    (handle_destroy.indexOf (DestroyAction.revoke Sub.axis)
        < handle_destroy.indexOf DestroyAction.free ∧
     handle_destroy.indexOf (DestroyAction.revoke Sub.proximity)
        < handle_destroy.indexOf DestroyAction.free ∧
     handle_destroy.indexOf (DestroyAction.revoke Sub.tip)
        < handle_destroy.indexOf DestroyAction.free ∧
     handle_destroy.indexOf (DestroyAction.revoke Sub.button)
        < handle_destroy.indexOf DestroyAction.free ∧
     handle_destroy.indexOf (DestroyAction.revoke Sub.destroy)
        < handle_destroy.indexOf DestroyAction.free) ∧
    stepDevice ⟨tablet_init_subs, true⟩ Event.destroyEv = (⟨[], false⟩, true) ∧
    (∀ es : List Event,
      observe (stepDevice ⟨tablet_init_subs, true⟩ Event.destroyEv).1 es
        = List.replicate es.length false) := by
  refine ⟨by decide, by decide, by decide, ?_⟩
  intro es
  have h : (stepDevice ⟨tablet_init_subs, true⟩ Event.destroyEv).1
      = ⟨[], false⟩ := by decide
  rw [h]
  exact observe_dead es

lemma scale_mem_unit (tw bw c x : ℚ) (htw : 0 < tw) (hbw : 0 < bw)
    (hl : c / tw ≤ x) (hr : x ≤ (c + bw) / tw) :
    0 ≤ (x - 1 * c / tw) * tw / bw ∧ (x - 1 * c / tw) * tw / bw ≤ 1 := by
  have h1 : c / tw * tw = c := div_mul_cancel₀ c htw.ne'
  constructor
  · apply div_nonneg _ hbw.le
    apply mul_nonneg _ htw.le
    rw [one_mul]
    linarith
  · rw [div_le_one hbw]
    have h2 : x * tw ≤ c + bw := (le_div_iff₀ htw).mp hr
    have h3 : (x - 1 * c / tw) * tw = x * tw - c := by
      rw [one_mul, sub_mul, h1]
    linarith

lemma adjust_for_tablet_area_mem_unit
    (tw th : ℚ) (box : FBox) (x y : ℚ)
    (htw : 0 < tw) (hth : 0 < th)
    (bw bh : ℚ)
    (hbw : bw = if box.width = 0 then tw - box.x else box.width)
    (hbh : bh = if box.height = 0 then th - box.y else box.height)
    (hbw0 : 0 < bw) (hbh0 : 0 < bh)
    (hx0 : 0 ≤ x) (hx1 : x ≤ 1) (hy0 : 0 ≤ y) (hy1 : y ≤ 1)
    (hxl : box.x / tw ≤ x) (hxr : x ≤ (box.x + bw) / tw)
    (hyl : box.y / th ≤ y) (hyr : y ≤ (box.y + bh) / th) :
    0 ≤ (adjust_for_tablet_area tw th box (x, y)).1 ∧
    (adjust_for_tablet_area tw th box (x, y)).1 ≤ 1 ∧
    0 ≤ (adjust_for_tablet_area tw th box (x, y)).2 ∧
    (adjust_for_tablet_area tw th box (x, y)).2 ≤ 1 := by
  by_cases hs : (box.x = 0 ∧ box.y = 0 ∧ box.width = 0 ∧ box.height = 0)
      ∨ tw = 0 ∨ th = 0
  · rw [adjust_for_tablet_area, if_pos hs]
    exact ⟨hx0, hx1, hy0, hy1⟩
  · rw [adjust_unfold tw th box (x, y) hs]
    rw [← hbw, ← hbh]
    have hX : 0 ≤ (if box.x + bw ≤ tw then (x - 1 * box.x / tw) * tw / bw
          else x) ∧
        (if box.x + bw ≤ tw then (x - 1 * box.x / tw) * tw / bw else x) ≤ 1 := by
      by_cases hfit : box.x + bw ≤ tw
      · rw [if_pos hfit]
        exact scale_mem_unit tw bw box.x x htw hbw0 hxl hxr
      · rw [if_neg hfit]
        exact ⟨hx0, hx1⟩
    have hY : 0 ≤ (if box.y + bh ≤ th then (y - 1 * box.y / th) * th / bh
          else y) ∧
        (if box.y + bh ≤ th then (y - 1 * box.y / th) * th / bh else y) ≤ 1 := by
      by_cases hfit : box.y + bh ≤ th
      · rw [if_pos hfit]
        exact scale_mem_unit th bh box.y y hth hbh0 hyl hyr
      · rw [if_neg hfit]
        exact ⟨hy0, hy1⟩
    exact ⟨hX.1, hX.2, hY.1, hY.2⟩

/-- Claim C1 (amended): every coordinate pair passed to the emulation
sink's absolute move lies in `[0,1]²` provided the stored position (as
updated by the event) lies in `[0,1]²` and inside the configured active
area's normalized rectangle, with positive physical dimensions and
positive resolved effective sizes; no clamping is involved. -/
theorem handle_axis_emits_in_unit_square
    (tw th : ℚ) (cfg : TabletConfig) (t : DrawingTablet) (ev : AxisEvent)
    (nx ny : ℚ)
    (hnx : nx = if ev.updatedX then ev.x else t.x)
    (hny : ny = if ev.updatedY then ev.y else t.y)
    (htw : 0 < tw) (hth : 0 < th)
    (bw bh : ℚ)
    (hbw : bw = if cfg.box.width = 0 then tw - cfg.box.x else cfg.box.width)
    (hbh : bh = if cfg.box.height = 0 then th - cfg.box.y else cfg.box.height)
    (hbw0 : 0 < bw) (hbh0 : 0 < bh)
    (hx0 : 0 ≤ nx) (hx1 : nx ≤ 1) (hy0 : 0 ≤ ny) (hy1 : ny ≤ 1)
    (hxl : cfg.box.x / tw ≤ nx) (hxr : nx ≤ (cfg.box.x + bw) / tw)
    (hyl : cfg.box.y / th ≤ ny) (hyr : ny ≤ (cfg.box.y + bh) / th) :
    (handle_axis tw th cfg t ev).2.all callInUnitSquare = true := by
  by_cases hsupp : tool_supports_absolute_motion ev.toolType = true
  · by_cases hup : ev.updatedX = true ∨ ev.updatedY = true
    · have harea := adjust_for_tablet_area_mem_unit tw th cfg.box nx ny htw hth
        bw bh hbw hbh hbw0 hbh0 hx0 hx1 hy0 hy1 hxl hxr hyl hyr
      have hrot := adjust_for_rotation_mem_unit cfg.rotation
        (adjust_for_tablet_area tw th cfg.box (nx, ny)) harea
      simp only [handle_axis, hsupp, not_true, if_false, hup, if_true,
        List.all_cons, List.all_nil, Bool.and_true, callInUnitSquare, inUnit,
        Bool.and_eq_true, decide_eq_true_eq]
      rw [← hnx, ← hny]
      exact ⟨⟨hrot.1, hrot.2.1⟩, hrot.2.2.1, hrot.2.2.2⟩
    · simp [handle_axis, hup]
  · simp [handle_axis, hsupp]

/-- Witness for C1 (amended): a pen X-update to the middle of the
active area `(10, 0, 80, 0)` of a 100mm × 100mm tablet under 90-degree
rotation emits a move inside the unit square. -/
theorem handle_axis_emits_in_unit_square_witness :
    ((handle_axis 100 100 ⟨⟨10, 0, 80, 0⟩, Rotation.r90⟩ ⟨3/10, 2/5⟩
        ⟨true, false, 1/2, 0, WLR_TABLET_TOOL_TYPE_PEN, 5⟩).2.all
      callInUnitSquare) = true :=
  handle_axis_emits_in_unit_square 100 100 ⟨⟨10, 0, 80, 0⟩, Rotation.r90⟩
    ⟨3/10, 2/5⟩ ⟨true, false, 1/2, 0, WLR_TABLET_TOOL_TYPE_PEN, 5⟩
    (1/2) (2/5) (by norm_num) (by norm_num) (by norm_num) (by norm_num)
    80 100 (by norm_num) (by norm_num) (by norm_num) (by norm_num)
    (by norm_num) (by norm_num) (by norm_num) (by norm_num)
    (by norm_num) (by norm_num) (by norm_num) (by norm_num)

/-- Counterexample to claim C1 as stated: with the active area
`(10, 0, 80, 0)` on a 100mm × 100mm tablet and no rotation, an axis
event from a pen whose stored position `x = 0` lies outside the area
leads to an emulation call with `x = -1/8 ∉ [0,1]` — the core passes
the out-of-range value through unclamped. -/
theorem handle_axis_emits_outside_unit_square_cex :
    (handle_axis 100 100 ⟨⟨10, 0, 80, 0⟩, Rotation.none⟩ ⟨0, 1/2⟩
        ⟨true, false, 0, 0, WLR_TABLET_TOOL_TYPE_PEN, 5⟩).2
      = [EmuCall.moveAbsolute (-1/8) (1/2) 5] ∧
    ¬ ((0 : ℚ) ≤ -1/8) := by
  constructor
  · norm_num [handle_axis, tool_supports_absolute_motion,
      WLR_TABLET_TOOL_TYPE_PEN, WLR_TABLET_TOOL_TYPE_MOUSE,
      WLR_TABLET_TOOL_TYPE_LENS, adjust_for_tablet_area, adjust_for_rotation]
  · norm_num

end Tablet
